import Mathlib

/-!
Verification development for the nutils `types` core: the canonical content
hash (`nutils_hash`), the immutable mapping type (`frozendict`), argument
binding and coercion (`apply_annotations`), and the per-instance memoization
mechanism (`CacheMeta`).  The module `nutils/types.py` itself is not part of
the supplied sources (only its test suite `tests/test_types.py` and the
unrelated `nutils/compile.py` are), so every definition below is modelled
from the specification of that module, as indicated by its doc comment.
-/

/-- Modelled from the spec: the built-in kinds that can occur as a
type-as-value argument of `nutils_hash`. -/
inductive PyKind where
  | noneT
  | boolT
  | intT
  | floatT
  | complexT
  | strT
  | bytesT
  | tupleT
  | frozensetT
  deriving DecidableEq

/-- Numeric code of a built-in kind, used as the payload of the
type-as-value digest rule. -/
def kindCode : PyKind → Nat
  | .noneT => 0
  | .boolT => 1
  | .intT => 2
  | .floatT => 3
  | .complexT => 4
  | .strT => 5
  | .bytesT => 6
  | .tupleT => 7
  | .frozensetT => 8

/-- Modelled from the spec: the closed universe of supported value kinds of
`nutils/types.py` (absent from the sources) over which `nutils_hash`
dispatches — absence-of-value, ellipsis, boolean, arbitrary-precision
integer, IEEE-754 float (carried by its bit pattern, per the spec's
"canonical IEEE-754 bit pattern" rule), complex, text, raw bytes, ordered
tuple, unordered frozen set, type-as-value, and the mutable list (which is
unhashable).  Floats appear only as opaque bit patterns; no floating-point
arithmetic is modelled. -/
inductive PyValue where
  | none
  | ellipsis
  | bool (b : Bool)
  | int (n : Int)
  | float (bits : Nat)
  | complex (re im : Nat)
  | str (s : String)
  | bytes (bs : List Nat)
  | tuple (xs : List PyValue)
  | frozenset (xs : List PyValue)
  | typeval (k : PyKind)
  | list (xs : List PyValue)

/-- Little-endian base-256 byte expansion of a natural number, with an
explicit structural fuel so the definition reduces in the kernel. -/
def natBytesAux : Nat → Nat → List Nat
  | 0, _ => []
  | _, 0 => []
  | fuel+1, n+1 => ((n+1) % 256) :: natBytesAux fuel ((n+1) / 256)

/-- Little-endian base-256 byte expansion; the number itself bounds the
number of digits. -/
def natBytes (n : Nat) : List Nat := natBytesAux n n

/-- Sign-plus-magnitude encoding of an arbitrary-precision integer, per the
spec's integer rule ("sign + arbitrary-precision magnitude byte
encoding"). -/
def intBytes : Int → List Nat
  | .ofNat m => 0 :: natBytes m
  | .negSucc m => 1 :: natBytes (m+1)

mutual

/-- Modelled from the spec: `nutils_hash` of `nutils/types.py` (absent from
the sources), §4.1 of the spec.  Each supported kind is encoded as a
distinct leading kind tag followed by a canonical payload: none and
ellipsis are fixed constants, booleans are two constants distinct from the
integer encoding, integers use sign plus arbitrary-precision magnitude,
floats use the IEEE-754 bit pattern, complex numbers the float rule on the
pair (re, im), text and bytes are length-prefixed with distinct tags,
tuples combine element digests order-sensitively (length-prefixed
concatenation), frozen sets combine element digests with a commutative and
associative mix (a sum, per the spec's "e.g., a commutative/associative
mixing of per-element digests"), and type-as-value gets a dedicated
constant per kind.  Unhashable values (the mutable list) yield `Option.none`,
standing for the spec's unhashable-value error.  The spec leaves the final
fixed digest algorithm free (§9 open question: "any algorithm is
acceptable ... provided it is stable"); the model takes the canonical
tagged encoding itself as the digest, which realises exactly the collision
structure the spec mandates (no two kinds share an encoding prefix). -/
def nutils_hash : PyValue → Option (List Nat)
  | .none => some [0]
  | .ellipsis => some [10]
  | .bool b => some [1, cond b 1 0]
  | .int n => some (2 :: intBytes n)
  | .float bits => some (3 :: natBytes bits)
  | .complex re im => some (4 :: (natBytes re ++ 255 :: natBytes im))
  | .str s => some (5 :: s.length :: (s.data.map Char.toNat))
  | .bytes bs => some (6 :: bs.length :: bs)
  | .tuple xs => (hashElems xs).map (fun l => 7 :: xs.length :: l)
  | .frozenset xs =>
    (hashElems xs).map (fun l => 8 :: xs.length :: natBytes (l.foldl (fun a b => a + b) 0))
  | .typeval k => some [9, kindCode k]
  | .list _ => Option.none

/-- Order-sensitive combination of the digests of a list of elements: each
element's digest, length-prefixed, concatenated in order. -/
def hashElems : List PyValue → Option (List Nat)
  | [] => some []
  | x :: xs => do
    let h ← nutils_hash x
    let rest ← hashElems xs
    pure ((h.length :: h) ++ rest)

end

/-- IEEE-754 double bit pattern of 1.0. -/
def bitsOne : Nat := 0x3FF0000000000000

/-- C3: the digests of the integer 1, the boolean true, the float 1.0 and
the complex 1+0j are pairwise distinct even though these values compare
equal under loose numeric equality, and the digest of the integer kind used
as a type-value differs from the digest of every integer instance. -/
theorem nutils_hash_kind_separation :
    (nutils_hash (PyValue.int 1) ≠ nutils_hash (PyValue.bool true)
      ∧ nutils_hash (PyValue.int 1) ≠ nutils_hash (PyValue.float bitsOne)
      ∧ nutils_hash (PyValue.int 1) ≠ nutils_hash (PyValue.complex bitsOne 0)
      ∧ nutils_hash (PyValue.bool true) ≠ nutils_hash (PyValue.float bitsOne)
      ∧ nutils_hash (PyValue.bool true) ≠ nutils_hash (PyValue.complex bitsOne 0)
      ∧ nutils_hash (PyValue.float bitsOne) ≠ nutils_hash (PyValue.complex bitsOne 0))
    ∧ ∀ n : Int, nutils_hash (PyValue.typeval PyKind.intT) ≠ nutils_hash (PyValue.int n) := by
  refine ⟨by decide, ?_⟩
  intro n h
  simp only [nutils_hash, Option.some_inj] at h
  exact absurd (List.head_eq_of_cons_eq h) (by decide)

/-- Witness for C3: the type-versus-instance separation instantiated at the
integer instance 1. -/
theorem nutils_hash_kind_separation_witness :
    nutils_hash (PyValue.typeval PyKind.intT) ≠ nutils_hash (PyValue.int 1) :=
  nutils_hash_kind_separation.2 1

mutual

/-- Structural equality test on modelled values, playing the role of Python
value equality for the key and value kinds the claims exercise. -/
def pyBeq : PyValue → PyValue → Bool
  | .none, .none => true
  | .ellipsis, .ellipsis => true
  | .bool a, .bool b => a == b
  | .int a, .int b => a == b
  | .float a, .float b => a == b
  | .complex a b, .complex c d => a == c && b == d
  | .str a, .str b => a == b
  | .bytes a, .bytes b => a == b
  | .tuple a, .tuple b => pyListBeq a b
  | .frozenset a, .frozenset b => pyListBeq a b
  | .typeval a, .typeval b => decide (a = b)
  | .list a, .list b => pyListBeq a b
  | _, _ => false

/-- Elementwise structural equality of value lists. -/
def pyListBeq : List PyValue → List PyValue → Bool
  | [], [] => true
  | a :: as, b :: bs => pyBeq a b && pyListBeq as bs
  | _, _ => false

end

/-- Modelled from the spec: the error taxonomy of `nutils/types.py` (absent
from the sources), §7 of the spec: validation, not-found, illegal-mutation
and usage errors. -/
inductive PyErr where
  | validation
  | notFound
  | illegalMutation
  | usage
  deriving DecidableEq

/-- Key membership test on a key/value pair list. -/
def hasKey (k : PyValue) (l : List (PyValue × PyValue)) : Bool :=
  l.any (fun p => pyBeq p.1 k)

/-- Collapse duplicate keys of a pair list, keeping the binding of the last
occurrence of each key, as a mapping constructor does. -/
def dedupKeys : List (PyValue × PyValue) → List (PyValue × PyValue)
  | [] => []
  | (k, v) :: rest =>
    if hasKey k (dedupKeys rest) then dedupKeys rest else (k, v) :: dedupKeys rest

/-- Modelled from the spec: the immutable mapping type `frozendict` of
`nutils/types.py` (absent from the sources), §4.3 of the spec — an
immutable collection of unique keys each mapped to one value, built once at
construction; insertion order carries no meaning. -/
structure frozendict where
  items : List (PyValue × PyValue)

/-- Modelled from the spec: construction of a `frozendict` from key/value
pairs (the pair-iterable branch of the constructor; duplicate keys collapse
as in a mapping). -/
def frozendict.ofList (l : List (PyValue × PyValue)) : frozendict :=
  ⟨dedupKeys l⟩

/-- First value bound to a key in a pair list. -/
def lookupKey (k : PyValue) : List (PyValue × PyValue) → Option PyValue
  | [] => Option.none
  | (k2, v) :: rest => if pyBeq k2 k then some v else lookupKey k rest

/-- Modelled from the spec: keyed lookup on a `frozendict`; a missing key
fails with a not-found error. -/
def frozendict.getitem (d : frozendict) (k : PyValue) : Except PyErr PyValue :=
  match lookupKey k d.items with
  | some v => Except.ok v
  | Option.none => Except.error PyErr.notFound

/-- Modelled from the spec: item assignment on a `frozendict` is always
rejected with an illegal-mutation error; no mutated mapping is ever
produced. -/
def frozendict.setitem (_ : frozendict) (_ _ : PyValue) : Except PyErr frozendict :=
  Except.error PyErr.illegalMutation

/-- Modelled from the spec: item deletion on a `frozendict` is always
rejected with an illegal-mutation error. -/
def frozendict.delitem (_ : frozendict) (_ : PyValue) : Except PyErr frozendict :=
  Except.error PyErr.illegalMutation

/-- Membership of a key/value pair in a pair list, comparing both
components structurally. -/
def pairMem (p : PyValue × PyValue) (l : List (PyValue × PyValue)) : Bool :=
  l.any (fun q => pyBeq p.1 q.1 && pyBeq p.2 q.2)

/-- Containment of pair lists viewed as sets of pairs. -/
def subPairs (xs ys : List (PyValue × PyValue)) : Bool :=
  xs.all (fun p => pairMem p ys)

/-- Modelled from the spec: equality of two `frozendict` instances — their
key/value contents compared as sets of pairs, irrespective of insertion
order. -/
def fdEq (a b : frozendict) : Bool :=
  subPairs a.items b.items && subPairs b.items a.items

/-- Modelled from the spec: serialization of a `frozendict` — its contents
as key/value pairs, the data a pickle of the instance carries. -/
def frozendict.serialize (d : frozendict) : List (PyValue × PyValue) :=
  d.items

/-- Modelled from the spec: restoring a serialized `frozendict`
reconstructs the instance from its pairs, yielding again a `frozendict`. -/
def frozendict.restore (l : List (PyValue × PyValue)) : frozendict :=
  frozendict.ofList l

/-- IEEE-754 double bit pattern of 2.3. -/
def bitsTwoPointThree : Nat := 0x4002666666666666

/-- The pair list of the test mapping with keys spam and eggs. -/
def srcPairs : List (PyValue × PyValue) :=
  [(PyValue.str "spam", PyValue.int 1), (PyValue.str "eggs", PyValue.float bitsTwoPointThree)]

/-- The same pair list in the opposite construction order. -/
def srcPairsRev : List (PyValue × PyValue) :=
  [(PyValue.str "eggs", PyValue.float bitsTwoPointThree), (PyValue.str "spam", PyValue.int 1)]

/-- C6: on the frozendict built from spam ↦ 1, eggs ↦ 2.3, lookup of spam
returns 1, lookup of the absent key foo fails with the not-found error, and
item assignment as well as item deletion fail with the illegal-mutation
error, producing no mutated mapping. -/
theorem frozendict_read_contract :
    frozendict.getitem (frozendict.ofList srcPairs) (PyValue.str "spam") = Except.ok (PyValue.int 1)
    ∧ frozendict.getitem (frozendict.ofList srcPairs) (PyValue.str "foo") = Except.error PyErr.notFound
    ∧ frozendict.setitem (frozendict.ofList srcPairs) (PyValue.str "eggs") (PyValue.int 3)
        = Except.error PyErr.illegalMutation
    ∧ frozendict.delitem (frozendict.ofList srcPairs) (PyValue.str "eggs")
        = Except.error PyErr.illegalMutation :=
  ⟨rfl, rfl, rfl, rfl⟩

/-- Keys already unique: deduplication leaves a deduplicated list fixed. -/
theorem dedupKeys_idem (l : List (PyValue × PyValue)) :
    dedupKeys (dedupKeys l) = dedupKeys l := by
  induction l with
  | nil => rfl
  | cons p rest ih =>
    obtain ⟨k, v⟩ := p
    cases h : hasKey k (dedupKeys rest) with
    | true => simp [dedupKeys, h, ih]
    | false => simp [dedupKeys, h, ih]

/-- C8: serializing a frozendict and restoring it yields the same
frozendict back — the round-trip preserves the contents, and the result is
again a frozendict by the type of `frozendict.restore`. -/
theorem frozendict_serialize_roundtrip (l : List (PyValue × PyValue)) :
    frozendict.restore (frozendict.serialize (frozendict.ofList l)) = frozendict.ofList l := by
  simp [frozendict.restore, frozendict.serialize, frozendict.ofList, dedupKeys_idem]

/-- Witness for C8: the round-trip at the concrete test mapping. -/
theorem frozendict_serialize_roundtrip_witness :
    frozendict.restore (frozendict.serialize (frozendict.ofList srcPairs)) = frozendict.ofList srcPairs :=
  frozendict_serialize_roundtrip srcPairs

/-- Modelled from the spec: a mapping object as seen by Python-level
equality — either a frozendict or a plain mutable dict (a pair list). -/
inductive MappingObj where
  | frozen (d : frozendict)
  | plain (items : List (PyValue × PyValue))

/-- Modelled from the spec: equality between mapping objects. Two
frozendict instances compare by their contents as sets of pairs (§4.3); a
frozendict and a plain mutable dict never compare equal — structural
equality holds only between instances of the frozen type. -/
def mappingEq : MappingObj → MappingObj → Bool
  | .frozen a, .frozen b => fdEq a b
  | .plain a, .plain b => subPairs a b && subPairs b a
  | _, _ => false

/-- C10: a frozendict never compares equal to a plain mutable dict, even
with identical contents (shown generally and at the spam/eggs mapping),
while two separately constructed frozendicts with equal contents — even
built in different orders — do compare equal. -/
theorem frozendict_eq_only_frozen :
    (∀ (d : frozendict) (l : List (PyValue × PyValue)),
        mappingEq (MappingObj.frozen d) (MappingObj.plain l) = false
        ∧ mappingEq (MappingObj.plain l) (MappingObj.frozen d) = false)
    ∧ mappingEq (MappingObj.frozen (frozendict.ofList srcPairs)) (MappingObj.plain srcPairs) = false
    ∧ mappingEq (MappingObj.frozen (frozendict.ofList srcPairs))
        (MappingObj.frozen (frozendict.ofList srcPairs)) = true
    ∧ mappingEq (MappingObj.frozen (frozendict.ofList srcPairs))
        (MappingObj.frozen (frozendict.ofList srcPairsRev)) = true :=
  ⟨fun _ _ => ⟨rfl, rfl⟩, rfl, rfl, rfl⟩

/-- Witness for C10: the general frozen-versus-plain inequality
instantiated at the spam/eggs mapping. -/
theorem frozendict_eq_only_frozen_witness :
    mappingEq (MappingObj.frozen (frozendict.ofList srcPairs)) (MappingObj.plain srcPairs) = false
    ∧ mappingEq (MappingObj.plain srcPairs) (MappingObj.frozen (frozendict.ofList srcPairs)) = false :=
  frozendict_eq_only_frozen.1 (frozendict.ofList srcPairs) srcPairs

/-- Modelled from the spec: the parameter kinds of an annotated signature,
§3 of the spec — positional-only, positional-or-keyword, keyword-only,
var-positional and var-keyword. -/
inductive ParamKind where
  | posonly
  | posOrKw
  | kwonly
  | varpos
  | varkw
  deriving DecidableEq

/-- Modelled from the spec: a parameter descriptor of an annotated
signature — name, kind, optional coercer and optional default. -/
structure Param where
  name : String
  kind : ParamKind
  coerceFn : Option (PyValue → Option PyValue)
  default : Option PyValue

/-- Value bound to a keyword in a keyword-argument list. -/
def findKw (n : String) (kwargs : List (String × PyValue)) : Option PyValue :=
  match kwargs.find? (fun p => p.1 == n) with
  | some p => some p.2
  | Option.none => Option.none

/-- Remove every binding of a keyword from a keyword-argument list. -/
def eraseKw (n : String) (kwargs : List (String × PyValue)) : List (String × PyValue) :=
  kwargs.filter (fun p => !(p.1 == n))

/-- The variadic keyword tail collected into one mapping value. -/
def kwToPy (kwargs : List (String × PyValue)) : PyValue :=
  PyValue.tuple (kwargs.map (fun p => PyValue.tuple [PyValue.str p.1, p.2]))

/-- Modelled from the spec: binding of actual call arguments to parameter
names following the declared kinds, §4.4 step 1 — positional arguments fill
positional-only and positional-or-keyword parameters in order, keywords
fill positional-or-keyword and keyword-only parameters by name, a
var-positional parameter collects the positional tail into one sequence, a
var-keyword parameter collects the remaining keywords into one mapping,
unbound parameters fall back to their defaults, and a parameter bound both
positionally and by keyword, a missing required parameter, or leftover
arguments fail the binding.  The result lists one binding per parameter in
declaration order. -/
def bindArgs : List Param → List PyValue → List (String × PyValue) →
    Option (List (String × PyValue))
  | [], [], [] => some []
  | [], _, _ => Option.none
  | p :: ps, args, kwargs =>
    match p.kind with
    | .posonly =>
      match args with
      | a :: rest => (bindArgs ps rest kwargs).map (fun r => (p.name, a) :: r)
      | [] =>
        match p.default with
        | some d => (bindArgs ps [] kwargs).map (fun r => (p.name, d) :: r)
        | Option.none => Option.none
    | .posOrKw =>
      match args with
      | a :: rest =>
        if kwargs.any (fun q => q.1 == p.name) then Option.none
        else (bindArgs ps rest kwargs).map (fun r => (p.name, a) :: r)
      | [] =>
        match findKw p.name kwargs with
        | some v => (bindArgs ps [] (eraseKw p.name kwargs)).map (fun r => (p.name, v) :: r)
        | Option.none =>
          match p.default with
          | some d => (bindArgs ps [] kwargs).map (fun r => (p.name, d) :: r)
          | Option.none => Option.none
    | .kwonly =>
      match findKw p.name kwargs with
      | some v => (bindArgs ps args (eraseKw p.name kwargs)).map (fun r => (p.name, v) :: r)
      | Option.none =>
        match p.default with
        | some d => (bindArgs ps args kwargs).map (fun r => (p.name, d) :: r)
        | Option.none => Option.none
    | .varpos => (bindArgs ps [] kwargs).map (fun r => (p.name, PyValue.tuple args) :: r)
    | .varkw =>
      match ps, args with
      | [], [] => some [(p.name, kwToPy kwargs)]
      | _, _ => Option.none

/-- Modelled from the spec: the per-parameter coercion step, §4.4 step 2 —
a parameter without a coercer passes its bound value through; for an
annotated parameter, if the parameter has a declared default and the bound
value equals the sentinel absence value, coercion is skipped and the
absence value passes through unchanged; otherwise the coercer is applied
and its result replaces the bound value, a coercer failure (`Option.none`)
standing for the spec's validation error. -/
def coerceParam (p : Param) (v : PyValue) : Option PyValue :=
  match p.coerceFn with
  | Option.none => some v
  | some c =>
    match p.default, v with
    | some _, PyValue.none => some PyValue.none
    | _, _ => c v

/-- Apply the coercion step to every binding produced by `bindArgs`,
looking each bound name up in the declared parameter list. -/
def coerceBound (params : List Param) : List (String × PyValue) →
    Option (List (String × PyValue))
  | [] => some []
  | (n, v) :: rest =>
    match params.find? (fun p => p.name == n) with
    | Option.none => (coerceBound params rest).map (fun r => (n, v) :: r)
    | some p =>
      match coerceParam p v with
      | some w => (coerceBound params rest).map (fun r => (n, w) :: r)
      | Option.none => Option.none

/-- The normalized form of a call: binding followed by coercion. -/
def normalizeCall (params : List Param) (args : List PyValue)
    (kwargs : List (String × PyValue)) : Option (List (String × PyValue)) :=
  match bindArgs params args kwargs with
  | Option.none => Option.none
  | some bound => coerceBound params bound

/-- Modelled from the spec: `apply_annotations` of `nutils/types.py`
(absent from the sources), §4.4 — bind the actual arguments to the declared
signature, coerce each bound annotated parameter, and invoke the underlying
callable on the normalized bound values; a binding or coercion failure
propagates without invoking the callable. -/
def apply_annotations {R : Type} (params : List Param)
    (body : List (String × PyValue) → R) (args : List PyValue)
    (kwargs : List (String × PyValue)) : Option R :=
  (normalizeCall params args kwargs).map body

/-- Decimal digit value of a character, if it is one. -/
def charDigit (c : Char) : Option Nat :=
  if 48 ≤ c.toNat ∧ c.toNat ≤ 57 then some (c.toNat - 48) else Option.none

/-- Accumulating decimal parse of a character list. -/
def parseDigitsAux : List Char → Nat → Option Nat
  | [], acc => some acc
  | c :: cs, acc =>
    match charDigit c with
    | some d => parseDigitsAux cs (acc * 10 + d)
    | Option.none => Option.none

/-- Decimal parse of a nonempty string of digits. -/
def parseNat (s : String) : Option Nat :=
  match s.data with
  | [] => Option.none
  | cs => parseDigitsAux cs 0

/-- Modelled from the spec: the integer annotation used by the cached-method
tests — values that coerce to an exact integer (integers themselves,
booleans, decimal strings) normalize to the integer, anything else is a
validation failure. -/
def pyIntCoerce : PyValue → Option PyValue
  | PyValue.int n => some (PyValue.int n)
  | PyValue.bool b => some (PyValue.int (cond b 1 0))
  | PyValue.str s => (parseNat s).map (fun n => PyValue.int (Int.ofNat n))
  | _ => Option.none

/-- Modelled from the spec: the text annotation used by the
`apply_annotations` tests — text passes through, integers and booleans
normalize to their decimal or named text form. -/
def pyStrCoerce : PyValue → Option PyValue
  | PyValue.str s => some (PyValue.str s)
  | PyValue.int n => some (PyValue.str (toString n))
  | PyValue.bool b => some (PyValue.str (cond b "True" "False"))
  | PyValue.none => some (PyValue.str "None")
  | _ => Option.none

/-- The single parameter a of the test signature, positional-or-keyword,
annotated with the text coercer, with declared default the absence value. -/
def c7_param : Param :=
  ⟨"a", ParamKind.posOrKw, some pyStrCoerce, some PyValue.none⟩

/-- The underlying callable of the test: it returns the value bound to its
single parameter. -/
def c7_body (bound : List (String × PyValue)) : PyValue :=
  match bound with
  | [(_, v)] => v
  | _ => PyValue.ellipsis

/-- C7: under `apply_annotations`, for every annotated parameter with a
declared default, a bound value equal to the sentinel absence value skips
the coercer and passes through unchanged, and any other bound value is
replaced by the coercer's result; concretely, for a parameter a annotated
with the text coercer and defaulting to the absence value, calling with no
argument or with the absence value yields the absence value, while calling
with the integer 1 yields the text 1. -/
theorem apply_annotations_default_skip (p : Param) (c : PyValue → Option PyValue)
    (d : PyValue) (h1 : p.coerceFn = some c) (h2 : p.default = some d) :
    (coerceParam p PyValue.none = some PyValue.none
      ∧ ∀ v : PyValue, v ≠ PyValue.none → coerceParam p v = c v)
    ∧ (apply_annotations [c7_param] c7_body [] [] = some PyValue.none
      ∧ apply_annotations [c7_param] c7_body [PyValue.none] [] = some PyValue.none
      ∧ apply_annotations [c7_param] c7_body [PyValue.int 1] [] = some (PyValue.str "1")) := by
  refine ⟨⟨?_, ?_⟩, rfl, rfl, rfl⟩
  · simp [coerceParam, h1, h2]
  · intro v hv
    cases v <;> first
      | exact absurd rfl hv
      | simp [coerceParam, h1, h2]

/-- Witness for C7: the skip-versus-apply behaviour at the concrete test
parameter, with the sentinel value and with the integer 1. -/
theorem apply_annotations_default_skip_witness :
    coerceParam c7_param PyValue.none = some PyValue.none
    ∧ coerceParam c7_param (PyValue.int 1) = pyStrCoerce (PyValue.int 1) :=
  ⟨(apply_annotations_default_skip c7_param pyStrCoerce PyValue.none rfl rfl).1.1,
   (apply_annotations_default_skip c7_param pyStrCoerce PyValue.none rfl rfl).1.2
     (PyValue.int 1) (fun h => PyValue.noConfusion h)⟩

/-- Modelled from the spec: a method-style cached attribute as wired by the
`CacheMeta` mechanism of `nutils/types.py` (absent from the sources) — the
declared annotated signature and the original method body, which receives
the normalized bound arguments. -/
structure CachedMethod (R : Type) where
  params : List Param
  body : List (String × PyValue) → R

/-- Modelled from the spec: the per-instance CacheSlot of a method-style
cached attribute — a lazily populated, unbounded mapping from argument
digest to stored result, living as long as the instance — together with the
number of body invocations made so far (the test's call counter). -/
structure CacheState (R : Type) where
  slot : List (List Nat × R)
  ncalls : Nat

/-- Lookup of a digest key in a CacheSlot. -/
def lookupSlot {R : Type} (k : List Nat) : List (List Nat × R) → Option R
  | [] => Option.none
  | (k2, r) :: rest => if k2 = k then some r else lookupSlot k rest

/-- The normalized bound argument list as one ordered tuple value, the
digest of which keys the CacheSlot. -/
def boundToPy (bound : List (String × PyValue)) : PyValue :=
  PyValue.tuple (bound.map (fun p => PyValue.tuple [PyValue.str p.1, p.2]))

/-- A raw call: positional arguments plus keyword arguments. -/
abbrev RawCall : Type := List PyValue × List (String × PyValue)

/-- Modelled from the spec: one call of a cached method, §4.5 method case —
normalize the arguments (binding plus coercion), digest the normalized
argument tuple, and use the digest as the CacheSlot key for this instance:
a hit returns the stored result with the state untouched; a miss invokes
the original body once, stores the result under the key and counts the
invocation.  A binding, coercion or digest failure propagates without
touching the cache. -/
def callCached {R : Type} (m : CachedMethod R) (st : CacheState R)
    (args : List PyValue) (kwargs : List (String × PyValue)) :
    Option (R × CacheState R) :=
  match normalizeCall m.params args kwargs with
  | Option.none => Option.none
  | some nb =>
    match nutils_hash (boundToPy nb) with
    | Option.none => Option.none
    | some key =>
      match lookupSlot key st.slot with
      | some r => some (r, st)
      | Option.none => some (m.body nb, ⟨(key, m.body nb) :: st.slot, st.ncalls + 1⟩)

/-- Run a list of raw calls in order, threading the cache state; a failing
call leaves the state untouched. -/
def runCalls {R : Type} (m : CachedMethod R) (st : CacheState R) :
    List RawCall → CacheState R
  | [] => st
  | c :: cs =>
    match callCached m st c.1 c.2 with
    | Option.none => runCalls m st cs
    | some p => runCalls m p.2 cs

/-- Results of a list of raw calls in order, threading the cache state. -/
def runResults {R : Type} (m : CachedMethod R) (st : CacheState R) :
    List RawCall → List (Option R)
  | [] => []
  | c :: cs =>
    match callCached m st c.1 c.2 with
    | Option.none => Option.none :: runResults m st cs
    | some p => some p.1 :: runResults m p.2 cs

/-- A cached-method call never drops an existing CacheSlot entry. -/
theorem lookupSlot_after_call {R : Type} (m : CachedMethod R) (st st2 : CacheState R)
    (a : List PyValue) (kw : List (String × PyValue)) (r : R) (k : List Nat) (v : R)
    (hc : callCached m st a kw = some (r, st2)) (hl : lookupSlot k st.slot = some v) :
    lookupSlot k st2.slot = some v := by
  unfold callCached at hc
  cases hn : normalizeCall m.params a kw with
  | none => rw [hn] at hc; exact Option.noConfusion hc
  | some nb =>
    simp only [hn] at hc
    cases hh : nutils_hash (boundToPy nb) with
    | none => rw [hh] at hc; exact Option.noConfusion hc
    | some key =>
      simp only [hh] at hc
      cases hl2 : lookupSlot key st.slot with
      | some r0 =>
        simp only [hl2, Option.some.injEq, Prod.mk.injEq] at hc
        obtain ⟨rfl, rfl⟩ := hc
        exact hl
      | none =>
        simp only [hl2, Option.some.injEq, Prod.mk.injEq] at hc
        obtain ⟨rfl, rfl⟩ := hc
        show lookupSlot k ((key, m.body nb) :: st.slot) = some v
        unfold lookupSlot
        by_cases hk : key = k
        · subst hk; rw [hl] at hl2; exact Option.noConfusion hl2
        · simp only [hk, if_false]; exact hl

/-- CacheSlot entries persist across any further sequence of calls. -/
theorem lookupSlot_runCalls {R : Type} (m : CachedMethod R) (st : CacheState R)
    (cs : List RawCall) (k : List Nat) (v : R) (hl : lookupSlot k st.slot = some v) :
    lookupSlot k (runCalls m st cs).slot = some v := by
  induction cs generalizing st with
  | nil => exact hl
  | cons c cs ih =>
    unfold runCalls
    cases hc : callCached m st c.1 c.2 with
    | none => exact ih st hl
    | some p =>
      exact ih p.2 (lookupSlot_after_call m st p.2 c.1 c.2 p.1 k v hc hl)

/-- After a successful cached-method call, the CacheSlot holds the returned
result under the digest of the normalized arguments. -/
theorem callCached_stores {R : Type} (m : CachedMethod R) (st st2 : CacheState R)
    (a : List PyValue) (kw : List (String × PyValue)) (r : R)
    (A : List (String × PyValue)) (key : List Nat)
    (hn : normalizeCall m.params a kw = some A)
    (hh : nutils_hash (boundToPy A) = some key)
    (hc : callCached m st a kw = some (r, st2)) :
    lookupSlot key st2.slot = some r := by
  unfold callCached at hc
  simp only [hn] at hc
  simp only [hh] at hc
  cases hl : lookupSlot key st.slot with
  | some r0 =>
    simp only [hl, Option.some.injEq, Prod.mk.injEq] at hc
    obtain ⟨rfl, rfl⟩ := hc
    exact hl
  | none =>
    simp only [hl, Option.some.injEq, Prod.mk.injEq] at hc
    obtain ⟨rfl, rfl⟩ := hc
    show lookupSlot key ((key, m.body A) :: st.slot) = some (m.body A)
    unfold lookupSlot
    simp

/-- A call whose normalized argument digest is already stored returns the
stored result and leaves the cache state untouched. -/
theorem callCached_hit {R : Type} (m : CachedMethod R) (st : CacheState R)
    (a : List PyValue) (kw : List (String × PyValue))
    (A : List (String × PyValue)) (key : List Nat) (r : R)
    (hn : normalizeCall m.params a kw = some A)
    (hh : nutils_hash (boundToPy A) = some key)
    (hl : lookupSlot key st.slot = some r) :
    callCached m st a kw = some (r, st) := by
  unfold callCached
  simp only [hn, hh, hl]

/-- C1: once a cached method has been invoked with some normalized argument
set A, every later call on the same instance whose arguments normalize to
the same A returns the result stored for A and leaves the cache state — in
particular the invocation count — untouched, regardless of any sequence of
intervening calls with other arguments. -/
theorem cached_method_compute_once {R : Type} (m : CachedMethod R)
    (st st1 : CacheState R) (a1 : List PyValue) (kw1 : List (String × PyValue))
    (r1 : R) (cs : List RawCall) (a2 : List PyValue)
    (kw2 : List (String × PyValue)) (A : List (String × PyValue))
    (h1 : normalizeCall m.params a1 kw1 = some A)
    (h2 : normalizeCall m.params a2 kw2 = some A)
    (hc : callCached m st a1 kw1 = some (r1, st1)) :
    callCached m (runCalls m st1 cs) a2 kw2 = some (r1, runCalls m st1 cs) := by
  have hkey : ∃ key, nutils_hash (boundToPy A) = some key := by
    unfold callCached at hc
    simp only [h1] at hc
    cases hh : nutils_hash (boundToPy A) with
    | none => rw [hh] at hc; exact Option.noConfusion hc
    | some key => exact ⟨key, rfl⟩
  obtain ⟨key, hh⟩ := hkey
  have hst1 : lookupSlot key st1.slot = some r1 :=
    callCached_stores m st st1 a1 kw1 r1 A key h1 hh hc
  have hst2 : lookupSlot key (runCalls m st1 cs).slot = some r1 :=
    lookupSlot_runCalls m st1 cs key r1 hst1
  exact callCached_hit m (runCalls m st1 cs) a2 kw2 A key r1 h2 hh hst2

/-- The signature of the test method x(a, b): two positional-or-keyword
parameters without coercers or defaults. -/
def exParams : List Param :=
  [⟨"a", ParamKind.posOrKw, Option.none, Option.none⟩,
   ⟨"b", ParamKind.posOrKw, Option.none, Option.none⟩]

/-- The body of the test method: the sum of its two integer arguments. -/
def addBody (bound : List (String × PyValue)) : PyValue :=
  match bound with
  | [(_, PyValue.int a), (_, PyValue.int b)] => PyValue.int (a + b)
  | _ => PyValue.ellipsis

/-- The cached test method x(a, b) returning a + b. -/
def exM : CachedMethod PyValue := ⟨exParams, addBody⟩

/-- A fresh per-instance cache state: empty slot, no invocations. -/
def st0 : CacheState PyValue := ⟨[], 0⟩

/-- Cache state of the test instance after the first call x(1, 2). -/
def exSt1 : CacheState PyValue :=
  match callCached exM st0 [PyValue.int 1, PyValue.int 2] [] with
  | some p => p.2
  | Option.none => st0

/-- Intervening calls with other arguments: x(5, 6) and x(1, 2) again. -/
def exMid : List RawCall :=
  [([PyValue.int 5, PyValue.int 6], []),
   ([PyValue.int 1, PyValue.int 2], [])]

/-- Witness for C1: after x(1, 2) and the intervening calls, the keyword
call x(a=1, b=2) returns the stored 3 with the cache state untouched. -/
theorem cached_method_compute_once_witness :
    callCached exM (runCalls exM exSt1 exMid) []
        [("a", PyValue.int 1), ("b", PyValue.int 2)]
      = some (PyValue.int 3, runCalls exM exSt1 exMid) :=
  cached_method_compute_once exM st0 exSt1 [PyValue.int 1, PyValue.int 2] []
    (PyValue.int 3) exMid [] [("a", PyValue.int 1), ("b", PyValue.int 2)]
    [("a", PyValue.int 1), ("b", PyValue.int 2)] rfl rfl rfl

/-- The calls of the scenario: x(1, 2), then x(a=1, b=2), then x(2, 2). -/
def scenarioCalls : List RawCall :=
  [([PyValue.int 1, PyValue.int 2], []),
   ([], [("a", PyValue.int 1), ("b", PyValue.int 2)]),
   ([PyValue.int 2, PyValue.int 2], [])]

/-- The signature of the test method x(a, b) with both parameters annotated
by the integer coercer. -/
def exParamsC : List Param :=
  [⟨"a", ParamKind.posOrKw, some pyIntCoerce, Option.none⟩,
   ⟨"b", ParamKind.posOrKw, some pyIntCoerce, Option.none⟩]

/-- The cached, coercing test method x(a: int, b: int) returning a + b. -/
def exMC : CachedMethod PyValue := ⟨exParamsC, addBody⟩

/-- The calls of the coercing scenario: x(1, 2), then x(a='1', b='2')
(text arguments that coerce to the same normalized integers), then
x('2', '2'). -/
def scenarioCallsC : List RawCall :=
  [([PyValue.int 1, PyValue.int 2], []),
   ([], [("a", PyValue.str "1"), ("b", PyValue.str "2")]),
   ([PyValue.str "2", PyValue.str "2"], [])]

/-- C2: on one instance of a class with cached method x(a, b), the calls
x(1,2), x(a=1,b=2), x(2,2) return 3, 3, 4 while the body runs once after
the first two calls (the keyword call hits the entry of the positional
call) and a second time only for the genuinely different arguments (2,2);
likewise with integer-annotated parameters, where the text arguments
'1','2' coerce to the same normalized form as 1,2 and hit the same entry. -/
theorem cached_method_scenario :
    (runResults exM st0 scenarioCalls
        = [some (PyValue.int 3), some (PyValue.int 3), some (PyValue.int 4)]
      ∧ (runCalls exM st0 (scenarioCalls.take 1)).ncalls = 1
      ∧ (runCalls exM st0 (scenarioCalls.take 2)).ncalls = 1
      ∧ (runCalls exM st0 scenarioCalls).ncalls = 2)
    ∧ (runResults exMC st0 scenarioCallsC
        = [some (PyValue.int 3), some (PyValue.int 3), some (PyValue.int 4)]
      ∧ (runCalls exMC st0 (scenarioCallsC.take 1)).ncalls = 1
      ∧ (runCalls exMC st0 (scenarioCallsC.take 2)).ncalls = 1
      ∧ (runCalls exMC st0 scenarioCallsC).ncalls = 2) :=
  ⟨⟨rfl, rfl, rfl, rfl⟩, rfl, rfl, rfl, rfl⟩

/-- Modelled from the spec: the per-instance CacheSlot of a property-style
cached attribute — at most one computed value, written at most once — and
the number of body invocations.  The slot is a fixed field of the state,
matching the spec's requirement that storage work for instance types with
a fixed, enumerated set of storage fields. -/
structure PropState (R : Type) where
  slot : Option R
  ncalls : Nat

/-- Modelled from the spec: one read of a cached property, §4.5 property
case — the first read invokes the original property body, stores the result
in the instance's CacheSlot and returns it; every later read returns the
stored value without recomputation. -/
def readProp {R : Type} (body : Unit → R) (st : PropState R) : R × PropState R :=
  match st.slot with
  | some v => (v, st)
  | Option.none => (body (), ⟨some (body ()), st.ncalls + 1⟩)

/-- Iterate property reads, threading the state. -/
def readPropN {R : Type} (body : Unit → R) (st : PropState R) : Nat → PropState R
  | 0 => st
  | n+1 => readPropN body (readProp body st).2 n

/-- Once the property slot is filled, further reads leave the state
fixed. -/
theorem readPropN_stable {R : Type} (body : Unit → R) (v : R) (n k : Nat) :
    readPropN body ⟨some v, n⟩ k = ⟨some v, n⟩ := by
  induction k with
  | zero => rfl
  | succ k ih => exact ih

/-- C4: across N ≥ 2 reads of a cached property on a fresh instance, the
property body runs exactly once: the state after N reads holds the body's
value with invocation count one, and one more read returns that stored
value with the count unchanged. -/
theorem cached_property_compute_once {R : Type} (body : Unit → R) (N : Nat)
    (h : 2 ≤ N) :
    readPropN body ⟨Option.none, 0⟩ N = ⟨some (body ()), 1⟩
    ∧ readProp body (readPropN body ⟨Option.none, 0⟩ N)
        = (body (), ⟨some (body ()), 1⟩) := by
  obtain ⟨k, rfl⟩ : ∃ k, N = k + 1 := ⟨N - 1, by omega⟩
  have h1 : readPropN body ⟨Option.none, 0⟩ (k + 1) = ⟨some (body ()), 1⟩ :=
    readPropN_stable body (body ()) 1 k
  exact ⟨h1, by rw [h1]; rfl⟩

/-- Witness for C4: three reads of a cached property returning 7 leave the
slot holding 7 after exactly one invocation. -/
theorem cached_property_compute_once_witness :
    readPropN (fun _ => PyValue.int 7) ⟨Option.none, 0⟩ 3
      = ⟨some (PyValue.int 7), 1⟩ :=
  (cached_property_compute_once (fun _ => PyValue.int 7) 3 (by decide)).1

/-- Modelled from the spec: an instance of the subclass U of T where both
classes declare a cached property x — each class keeps its own independent
per-instance CacheSlot for the attribute, here the two fields. -/
structure SubInstance where
  baseX : Option Int
  subX : Option Int

/-- Modelled from the spec: reading the base class's cached property x on
the instance — cached in the base class's own slot; the base body computes
1. -/
def readBaseX (s : SubInstance) : Int × SubInstance :=
  match s.baseX with
  | some v => (v, s)
  | Option.none => (1, ⟨some 1, s.subX⟩)

/-- Modelled from the spec: reading the subclass's overriding cached
property x — its body calls into the base implementation (super().x, which
computes and caches the base value in the base slot) and adds 1, caching
the result in the subclass's own independent slot. -/
def readSubX (s : SubInstance) : Int × SubInstance :=
  match s.subX with
  | some v => (v, s)
  | Option.none =>
    match readBaseX s with
    | (bv, s1) => (bv + 1, ⟨s1.baseX, some (bv + 1)⟩)

/-- Modelled from the spec: the subclass property y, which forwards to the
base value super().x. -/
def readY (s : SubInstance) : Int × SubInstance := readBaseX s

/-- A fresh instance of the subclass: both slots empty. -/
def freshInstance : SubInstance := ⟨Option.none, Option.none⟩

/-- C5: on a subclass that overrides a cached property by calling into the
base implementation, reading the overriding property x and the forwarding
property y in either order yields the overridden value 2 and the base
value 1, and afterwards the base slot holds 1 and the subclass slot holds
2 — neither class's cached value corrupts the other's. -/
theorem subclass_slots_independent :
    ((readSubX freshInstance).1 = 2
      ∧ (readY (readSubX freshInstance).2).1 = 1
      ∧ (readY (readSubX freshInstance).2).2 = ⟨some 1, some 2⟩)
    ∧ ((readY freshInstance).1 = 1
      ∧ (readSubX (readY freshInstance).2).1 = 2
      ∧ (readSubX (readY freshInstance).2).2 = ⟨some 1, some 2⟩) :=
  ⟨⟨rfl, rfl, rfl⟩, rfl, rfl, rfl⟩
